import Mathlib

/-!
Verification of the listing-normalization / price-matching pipeline of
`src/bot.py` (RR-TCGProfitablePinger).  The Python functions
`clean_product_name`, `should_exclude_multipacks`, `get_exclusion_terms`,
`extract_product_info` (its price-extraction part), the query loop of
`get_ebay_sold_prices_api`, the Selenium fallback `_scrape_ebay_sync` /
`scrape_ebay_sold_prices_selenium`, the profit computation of
`create_alert_embed` and the tier selection of `on_message` are embedded
below as executable Lean definitions.  Machine floats are modelled as
rationals; the network providers are modelled as explicit function
parameters; the specific regular expressions of the source are embedded
as hand-written matchers that follow Python's leftmost-match,
greedy-with-backtracking semantics for those exact patterns.
-/

set_option maxRecDepth 20000

/- Batteries marks the rational-number arithmetic `@[irreducible]`, which
blocks `decide` on concrete pipeline evaluations; restore the default
transparency for this file (a reducibility attribute, no axioms involved). -/
set_option allowUnsafeReducibility true
attribute [local semireducible] Rat.add Rat.mul Rat.sub Rat.inv

/-- Characters Python's `str.strip` / regex `\s` treat as whitespace
(ASCII subset; the inputs handled here contain no exotic Unicode spaces). -/
def pyIsSpace (c : Char) : Bool :=
  c = ' ' || c = '\t' || c = '\n' || c = '\r' || c = '\x0b' || c = '\x0c'

/-- Python `str.lower` (ASCII letters; other characters unchanged). -/
def lowerStr (s : String) : String := ⟨s.data.map Char.toLower⟩

/-- `startsWithL pat s`: `s` begins with `pat` (exact characters). -/
def startsWithL : List Char → List Char → Bool
  | [], _ => true
  | _ :: _, [] => false
  | p :: ps, c :: cs => p = c && startsWithL ps cs

def containsL (pat : List Char) : List Char → Bool
  | [] => startsWithL pat []
  | c :: cs => startsWithL pat (c :: cs) || containsL pat cs

/-- Python's substring test `pat in s`. -/
def containsB (s pat : String) : Bool := containsL pat.data s.data

def isSuffixB (pat s : String) : Bool := startsWithL pat.data.reverse s.data.reverse

/-- Python `str.strip()` (no arguments: strip whitespace from both ends). -/
def pyStrip (s : String) : String :=
  ⟨((s.data.dropWhile pyIsSpace).reverse.dropWhile pyIsSpace).reverse⟩

def pySplitGo : List Char → List Char → List String
  | cur, [] => if cur = [] then [] else [⟨cur.reverse⟩]
  | cur, c :: cs =>
      if pyIsSpace c then
        (if cur = [] then pySplitGo [] cs else (⟨cur.reverse⟩ : String) :: pySplitGo [] cs)
      else pySplitGo (c :: cur) cs

/-- Python `str.split()` with no arguments: split on whitespace runs,
dropping empty pieces. -/
def pySplit (s : String) : List String := pySplitGo [] s.data

def isDig (c : Char) : Bool := '0' ≤ c && c ≤ '9'

/-- Case-insensitive literal matcher: if (lowercased) `s` starts with the
(lowercased) pattern, return the rest of `s`. -/
def ciMatch : List Char → List Char → Option (List Char)
  | [], s => some s
  | _ :: _, [] => none
  | p :: ps, c :: cs => if p.toLower = c.toLower then ciMatch ps cs else none

/-- Case-sensitive literal matcher. -/
def litMatch : List Char → List Char → Option (List Char)
  | [], s => some s
  | _ :: _, [] => none
  | p :: ps, c :: cs => if p = c then litMatch ps cs else none

/-- One left-to-right substitution pass, as `re.sub` / `str.replace`
perform it: at each position try the matcher; on a match emit the
replacement and continue after the match, otherwise keep the character.
The fuel argument only needs to exceed the input length because every
match of the matchers used below consumes at least one character. -/
def subScan (m : List Char → Option (List Char)) (rep : List Char) :
    Nat → List Char → List Char
  | 0, _ => []
  | _ + 1, [] => []
  | f + 1, c :: cs =>
      match m (c :: cs) with
      | some rest =>
          if rest.length < (c :: cs).length then rep ++ subScan m rep f rest
          else c :: subScan m rep f cs
      | none => c :: subScan m rep f cs

def runSub (m : List Char → Option (List Char)) (rep : List Char) (s : List Char) :
    List Char :=
  subScan m rep (s.length + 1) s

/-- Matcher for `[£$€]\s*\d+\.?\d*` (the price-stripping pattern of
`clean_product_name`): a currency symbol, greedy whitespace, at least one
digit, an optional dot, then greedy digits. -/
def symPriceM (s : List Char) : Option (List Char) :=
  match s with
  | c :: cs =>
      if c = '£' || c = '$' || c = '€' then
        let cs1 := cs.dropWhile pyIsSpace
        let sp := cs1.span isDig
        if sp.1 = [] then none
        else
          match sp.2 with
          | '.' :: r2 => some (r2.dropWhile isDig)
          | r1 => some r1
      else none
  | [] => none

/-- Matcher for `https?://\S+` (URL-stripping pattern of
`clean_product_name`). -/
def urlM (s : List Char) : Option (List Char) :=
  let rest? : Option (List Char) :=
    if startsWithL "https://".data s then some (s.drop 8)
    else if startsWithL "http://".data s then some (s.drop 7)
    else none
  match rest? with
  | some r =>
      let sp := r.span (fun c => !pyIsSpace c)
      if sp.1 = [] then none else some sp.2
  | none => none

/-- Matcher for `\s+` (whitespace-collapsing pattern). -/
def wsM (s : List Char) : Option (List Char) :=
  match s with
  | c :: cs => if pyIsSpace c then some (cs.dropWhile pyIsSpace) else none
  | [] => none

/-- `clean_product_name` of src/bot.py: remove `[TEST]` and `bundle`
case-insensitively, strip symbol-form prices and URLs, turn all dash
variants into spaces, collapse whitespace, strip. -/
def clean_product_name (name : String) : String :=
  if name = "" then name
  else
    let c1 := runSub (ciMatch "[TEST]".data) [] name.data
    let c2 := runSub (ciMatch "bundle".data) [] c1
    let c3 := runSub symPriceM [] c2
    let c4 := runSub urlM [] c3
    let c5 := runSub (litMatch "–".data) [' '] c4
    let c6 := runSub (litMatch "—".data) [' '] c5
    let c7 := runSub (litMatch " - ".data) [' '] c6
    let c8 := runSub (litMatch "-".data) [' '] c7
    let c9 := runSub wsM [' '] c8
    pyStrip ⟨c9⟩

/-- Take exactly `n` digits. -/
def digN : Nat → List Char → Option (List Char × List Char)
  | 0, s => some ([], s)
  | _ + 1, [] => none
  | n + 1, c :: cs =>
      if isDig c then (digN n cs).map (fun p => (c :: p.1, p.2)) else none

def dig3 (s : List Char) : Option (List Char × List Char) := digN 3 s

/-- Backtracking alternatives of `(?:,?\d{3})*` (greedy), in the priority
order Python's engine tries them: more iterations first, and within an
iteration the `,?` takes the comma when it can.  Every iteration consumes
at least three characters, so fuel `length + 1` is ample. -/
def starCD : Nat → List Char → List (List Char × List Char)
  | 0, s => [([], s)]
  | f + 1, s =>
      let iters : List (List Char × List Char) :=
        (match s with
         | ',' :: t =>
             match dig3 t with
             | some (d, r) => [(',' :: d, r)]
             | none => []
         | _ => []) ++
        (match dig3 s with
         | some (d, r) => [(d, r)]
         | none => [])
      (iters.flatMap (fun p => (starCD f p.2).map (fun q => (p.1 ++ q.1, q.2)))) ++ [([], s)]

/-- Backtracking alternatives of `(?:\.\d{1,2})?` (greedy): two fraction
digits first, then one, then skipping the optional group. -/
def decOpt (s : List Char) : List (List Char × List Char) :=
  (match s with
   | '.' :: t =>
       (match t with
        | a :: b :: r => if isDig a && isDig b then [(['.', a, b], r)] else []
        | _ => []) ++
       (match t with
        | a :: r => if isDig a then [(['.', a], r)] else []
        | _ => [])
   | _ => []) ++ [([], s)]

/-- Backtracking alternatives of the number pattern
`\d{1,3}(?:,?\d{3})*(?:\.\d{1,2})?` at the head of `s`, as
(matched characters, rest) in the engine's priority order
(`\d{1,3}` greedy: three digits before two before one). -/
def numCandidates (s : List Char) : List (List Char × List Char) :=
  [3, 2, 1].flatMap (fun a =>
    match digN a s with
    | none => []
    | some (d, r1) =>
        (starCD (r1.length + 1) r1).flatMap (fun mp =>
          (decOpt mp.2).map (fun dp => (d ++ mp.1 ++ dp.1, dp.2))))

/-- `\s+` followed by nothing that could be whitespace: the currency codes
start with letters, so the greedy whitespace munch never has to backtrack. -/
def wsPlus (s : List Char) : Option (List Char) :=
  match s with
  | c :: cs => if pyIsSpace c then some (cs.dropWhile pyIsSpace) else none
  | [] => none

/-- `(GBP|USD|EUR)` at the head of `s`, case-insensitively. -/
def codeAt (s : List Char) : Option String :=
  if (ciMatch "GBP".data s).isSome then some "GBP"
  else if (ciMatch "USD".data s).isSome then some "USD"
  else if (ciMatch "EUR".data s).isSome then some "EUR"
  else none

/-- Format-1 pattern of `extract_product_info`
(`(\d{1,3}(?:,?\d{3})*(?:\.\d{1,2})?)\s+(GBP|USD|EUR)`, IGNORECASE)
anchored at the current position: first backtracking alternative whose
continuation matches wins. -/
def fmt1At (s : List Char) : Option (List Char × String) :=
  (numCandidates s).findSome? (fun p =>
    match wsPlus p.2 with
    | some r2 => (codeAt r2).map (fun c => (p.1, c))
    | none => none)

/-- `re.search` for the format-1 pattern: leftmost starting position wins. -/
def fmt1Search : List Char → Option (List Char × String)
  | [] => none
  | c :: cs =>
      match fmt1At (c :: cs) with
      | some r => some r
      | none => fmt1Search cs

/-- The `(?:£|GBP)` / `(?:\$|USD)` / `(?:€|EUR)` head of the per-currency
patterns of `PRICE_PATTERNS`, case-insensitively. -/
def curHead (cur : String) (s : List Char) : Option (List Char) :=
  match s with
  | c :: cs =>
      if cur = "GBP" then (if c = '£' then some cs else ciMatch "GBP".data (c :: cs))
      else if cur = "USD" then (if c = '$' then some cs else ciMatch "USD".data (c :: cs))
      else if cur = "EUR" then (if c = '€' then some cs else ciMatch "EUR".data (c :: cs))
      else none
  | [] => none

/-- A `PRICE_PATTERNS` match anchored at the current position: currency
head, greedy `\s*`, then the first (greediest) number alternative — the
pattern has no trailing context, so no backtracking beyond that occurs. -/
def patAt (cur : String) (s : List Char) : Option (List Char) :=
  match curHead cur s with
  | some r1 => ((numCandidates (r1.dropWhile pyIsSpace)).head?).map (·.1)
  | none => none

/-- Group of the first `PRICE_PATTERNS` match in the text
(`re.findall(...)[0]` in the source only ever uses the first match). -/
def patFirst (cur : String) : List Char → Option (List Char)
  | [] => none
  | c :: cs =>
      match patAt cur (c :: cs) with
      | some g => some g
      | none => patFirst cur cs

def stripCommas (l : List Char) : List Char := l.filter (fun c => c ≠ ',')

def digitsVal (l : List Char) : ℚ :=
  l.foldl (fun a c => a * 10 + ((c.toNat - 48 : Nat) : ℚ)) 0

/-- Python `float` on the numeric strings arising here: digits, optionally
a single dot and more digits; at least one digit overall.  Anything else
raises `ValueError`, modelled as `none`. -/
def parseDec (l : List Char) : Option ℚ :=
  let sp := l.span isDig
  match sp.2 with
  | [] => if sp.1 = [] then none else some (digitsVal sp.1)
  | '.' :: fr =>
      if fr.all isDig && (sp.1 ≠ [] || fr ≠ []) then
        some (digitsVal sp.1 + digitsVal fr / (10 ^ fr.length : ℚ))
      else none
  | _ => none

/-- `should_exclude_multipacks` of src/bot.py: single-item keywords are
checked first and win; otherwise multipack keywords (and the default)
give `false`. -/
def single_item_keywords : List String :=
  ["tin", "mini tin", "booster pack", "single pack", "blister",
   "theme deck", "starter deck", "premium collection"]

def multipack_keywords : List String :=
  ["booster box", "display", "case", "bundle", "lot", "set of"]

def should_exclude_multipacks (product_name : String) : Bool :=
  let lower_name := lowerStr product_name
  if single_item_keywords.any (fun k => containsB lower_name k) then true
  else if multipack_keywords.any (fun k => containsB lower_name k) then false
  else false

/-- `get_exclusion_terms` of src/bot.py. -/
def get_exclusion_terms (product_name : String) : String :=
  if should_exclude_multipacks product_name then " -\"booster box\" -display" else ""

/-- Executable rational comparisons (cross-multiplied integer tests;
`Rat` keeps a positive denominator, so these agree with the order on ℚ —
see `ratLeB_iff` / `ratLtB_iff` below).  Python float comparisons on the
exactly-representable values handled here agree with the exact rational
order. -/
def ratLeB (a b : ℚ) : Bool := decide (a.num * (b.den : ℤ) ≤ b.num * (a.den : ℤ))

def ratLtB (a b : ℚ) : Bool := decide (a.num * (b.den : ℤ) < b.num * (a.den : ℤ))

theorem ratLeB_iff (a b : ℚ) : ratLeB a b = true ↔ a ≤ b := by
  simp [ratLeB, Rat.le_def]

theorem ratLtB_iff (a b : ℚ) : ratLtB a b = true ↔ a < b := by
  simp [ratLtB, Rat.lt_def]

/-- The process-wide exchange-rate table (GBP is always 1.0 and never
looked up for conversion). -/
structure Rates where
  usd : ℚ
  eur : ℚ
deriving DecidableEq

/-- The hardcoded fallback `EXCHANGE_RATES` of src/bot.py. -/
def defaultRates : Rates := ⟨79 / 100, 86 / 100⟩

def rateOf (r : Rates) (cur : String) : ℚ :=
  if cur = "USD" then r.usd else if cur = "EUR" then r.eur else 1

/-- The "reasonable price check" `0.1 <= price < 100000` guarding both
extraction formats in `extract_product_info`. -/
def inRange (p : ℚ) : Bool := ratLeB (1 / 10) p && ratLtB p 100000

/-- Format 1 of `extract_product_info` on one fragment text: decimal
number, whitespace, 3-letter code; commas stripped, range-checked, then
converted to GBP when the code is not GBP. -/
def fmt1Price (r : Rates) (t : String) : Option ℚ :=
  match fmt1Search t.data with
  | some gc =>
      match parseDec (stripCommas gc.1) with
      | some p =>
          if inRange p then some (if gc.2 = "GBP" then p else p * rateOf r gc.2)
          else none
      | none => none
  | none => none

/-- The `has_currency` pre-check of format 2: the symbol test and the
code test are case-SENSITIVE (`'GBP' in text_str`), although the pattern
itself is applied with IGNORECASE. -/
def gateB (cur : String) (t : String) : Bool :=
  if cur = "GBP" then containsB t "£" || containsB t "GBP"
  else if cur = "USD" then containsB t "$" || containsB t "USD"
  else containsB t "€" || containsB t "EUR"

/-- One currency of the format-2 loop: gate, first pattern match, parse,
range check, conversion.  `none` in every situation in which the Python
loop falls through to the next currency. -/
def fmt2One (r : Rates) (cur : String) (t : String) : Option ℚ :=
  if gateB cur t then
    match patFirst cur t.data with
    | some g =>
        match parseDec (stripCommas g) with
        | some p =>
            if inRange p then some (if cur = "GBP" then p else p * rateOf r cur)
            else none
        | none => none
    | none => none
  else none

/-- Format 2 tries the currencies in the fixed insertion order of the
`PRICE_PATTERNS` dict: GBP, then USD, then EUR. -/
def fmt2Price (r : Rates) (t : String) : Option ℚ :=
  ["GBP", "USD", "EUR"].findSome? (fun cur => fmt2One r cur t)

/-- Price extraction from a single fragment text: format 1 first;
format 2 only when format 1 produced no accepted price. -/
def fragPrice (r : Rates) (t : String) : Option ℚ :=
  match fmt1Price r t with
  | some p => some p
  | none => fmt2Price r t

/-- The location tags `extract_product_info` attaches to fragments.  The
source uses the strings `'title'`, `'description'`, `'author'`,
`'footer'`, `f'field_{i}_name'`, `f'field_{i}_value'`; decimal rendering
of the index makes distinct indices give distinct strings, so the tags
are embedded as an inductive type. -/
inductive Loc where
  | title
  | description
  | author
  | footer
  | fieldName (i : Nat)
  | fieldValue (i : Nat)
deriving DecidableEq

/-- Python `'notice' in location.lower()`: none of the generated location
strings contains the substring `notice`. -/
def noticeInLoc (_ : Loc) : Bool := false

/-- Python `'field_' in location and 'name' in location`: among the
generated location strings this holds exactly for `f'field_{i}_name'`
(the fixed tags and `f'field_{i}_value'` contain no `name`). -/
def isFieldNameLoc : Loc → Bool
  | .fieldName _ => true
  | _ => false

/-- Python `value_location = f'field_{location.split('_')[1]}_value'`:
the middle `_`-separated component of a field tag is its decimal index. -/
def fieldIdx : Loc → Nat
  | .fieldName i => i
  | .fieldValue i => i
  | _ => 0

/-- The skip applied inside the extraction loop:
`'notice' in location.lower() or 'resell' in text_str.lower()`. -/
def skipB (loc : Loc) (t : String) : Bool :=
  noticeInLoc loc || containsB (lowerStr t) "resell"

/-- The alert payload fields `extract_product_info` reads.  `none` and
`some ""` both model falsy values (absent fragment). -/
structure AlertEmbed where
  title : Option String
  description : Option String
  author : Option String
  footer : Option String
  fields : List (String × String)

def optFrag (l : Loc) : Option String → List (Loc × String)
  | some t => if t = "" then [] else [(l, t)]
  | none => []

/-- The per-field fragments, in order, mirroring
`for idx, field in enumerate(embed.fields)` appending
`(f'field_{idx}_name', field.name)` then `(f'field_{idx}_value', field.value)`. -/
def fieldFragsFrom : Nat → List (String × String) → List (Loc × String)
  | _, [] => []
  | i, (n, v) :: rest =>
      (Loc.fieldName i, n) :: (Loc.fieldValue i, v) :: fieldFragsFrom (i + 1) rest

/-- The `all_text` list of `extract_product_info` (truthy fragments only
for title/description/author/footer; all fields unconditionally). -/
def allText (e : AlertEmbed) : List (Loc × String) :=
  optFrag .title e.title ++ optFrag .description e.description ++
  optFrag .author e.author ++ optFrag .footer e.footer ++
  fieldFragsFrom 0 e.fields

/-- One step of the "prioritize Price field" scan: a nonempty field NAME
containing `price` (case-insensitively) replaces the remembered pair with
the first entry found at the corresponding value location (keeping the
previous one if the lookup fails). -/
def promoteStep (all : List (Loc × String)) (acc : Option (Loc × String))
    (p : Loc × String) : Option (Loc × String) :=
  if isFieldNameLoc p.1 && p.2 ≠ "" && containsB (lowerStr p.2) "price" then
    match all.find? (fun q => q.1 = Loc.fieldValue (fieldIdx p.1)) with
    | some q => some q
    | none => acc
  else acc

def promoteScan (all : List (Loc × String)) : Option (Loc × String) :=
  all.foldl (promoteStep all) none

/-- The `search_order` list: the promoted Price-field value first (when
one was found), then every entry of `all_text` other than it. -/
def searchOrder (e : AlertEmbed) : List (Loc × String) :=
  let all := allText e
  match promoteScan all with
  | some p => p :: all.filter (fun q => q ≠ p)
  | none => all

/-- The extraction loop over `search_order`: empty texts are passed over,
skipped fragments are passed over, a fragment yielding a price breaks out
of the loop — except that Python's `if buy_price: break` does not break
on a price equal to 0 (possible only through a zero exchange rate), in
which case the value is remembered and scanning continues. -/
def extractLoop (r : Rates) : List (Loc × String) → Option ℚ → Option ℚ
  | [], acc => acc
  | (loc, t) :: rest, acc =>
      if t = "" then extractLoop r rest acc
      else if skipB loc t then extractLoop r rest acc
      else
        match fragPrice r t with
        | some p => if p = 0 then extractLoop r rest (some p) else some p
        | none => extractLoop r rest acc

/-- The purchase-price result of `extract_product_info` (the product-name
and product-link results are independent of it and not needed here). -/
def extract_price (r : Rates) (e : AlertEmbed) : Option ℚ :=
  extractLoop r (searchOrder e) none

/-- `statistics.mean`. -/
def pyMean (l : List ℚ) : ℚ := l.sum / l.length

def insertQ (x : ℚ) : List ℚ → List ℚ
  | [] => [x]
  | y :: t => if ratLeB x y then x :: y :: t else y :: insertQ x t

/-- Ascending sort (insertion sort; `statistics.median` only depends on
the sorted order of the sample). -/
def sortQ : List ℚ → List ℚ
  | [] => []
  | x :: t => insertQ x (sortQ t)

/-- `statistics.median`: sort; odd length takes the middle element, even
length averages the two middle elements. -/
def pyMedian (l : List ℚ) : ℚ :=
  let s := sortQ l
  let n := s.length
  if n % 2 = 1 then s.getD (n / 2) 0
  else (s.getD (n / 2 - 1) 0 + s.getD (n / 2) 0) / 2

def minQ (a b : ℚ) : ℚ := if ratLeB a b then a else b

def maxQ (a b : ℚ) : ℚ := if ratLeB a b then b else a

/-- Python `min` over a nonempty list (0 as an unused total default). -/
def listMin : List ℚ → ℚ
  | [] => 0
  | h :: t => t.foldl minQ h

def listMax : List ℚ → ℚ
  | [] => 0
  | h :: t => t.foldl maxQ h

/-- The summary dict built by both resale sources. -/
structure EbayData where
  average : ℚ
  median : ℚ
  min : ℚ
  max : ℚ
  count : Nat
  prices : List ℚ
  query_used : String
deriving DecidableEq

def mkData (sold : List ℚ) (q : String) : EbayData :=
  { average := pyMean sold, median := pyMedian sold, min := listMin sold,
    max := listMax sold, count := sold.length, prices := sold, query_used := q }

/-- Behaviour of the eBay Finding API for one keyword string, after the
response parsing of `get_ebay_sold_prices_api`: `ok` carries the
`convertedCurrentPrice.__value__` float of each returned item (0 when the
field is missing); `failure` is `ack == 'Failure'`; `httpError` a
non-200 status; `err` a raised exception (timeout etc.).  All but a
non-empty `ok` make the loop move on to the next query. -/
inductive ApiResp where
  | ok (items : List ℚ)
  | failure
  | httpError
  | err
deriving DecidableEq

def joinWords (ws : List String) : String := " ".intercalate ws

def quoteStr (s : String) : String := "\"" ++ s ++ "\""

/-- The `search_queries` list built at the top of
`get_ebay_sold_prices_api`: quoted exact form (capped at 8 words),
unquoted form (capped at 10), first 6 words when there are at least 6,
all but the last word when there are at least 3.  No deduplication is
performed. -/
def search_queries (product_name : String) : List String :=
  let cleaned := clean_product_name product_name
  let words := pySplit cleaned
  (if words.length ≤ 8 then [quoteStr cleaned]
   else [quoteStr (joinWords (words.take 8))]) ++
  [(if words.length ≤ 10 then cleaned else joinWords (words.take 10))] ++
  (if 6 ≤ words.length then [joinWords (words.take 6)] else []) ++
  (if 3 ≤ words.length then [joinWords words.dropLast] else [])

/-- The query loop of `get_ebay_sold_prices_api`, instrumented with the
list of keyword strings actually sent to the provider.  A stripped-empty
query is skipped without any call; the keyword sent is the stripped
query plus the exclusion terms; only items with a strictly positive
price count; the first query with at least one positive price ends the
loop with the summary (whose `query_used` is the unstripped query). -/
def apiLoop (api : String → ApiResp) (excl : String) :
    List String → ((Option EbayData × Option ℚ × Nat) × List String)
  | [] => ((none, none, 0), [])
  | q :: rest =>
      let sq := pyStrip q
      if sq = "" then apiLoop api excl rest
      else
        let kw := sq ++ excl
        match api kw with
        | .ok items =>
            let sold := items.filter (fun p => ratLtB 0 p)
            if sold.isEmpty then
              let r := apiLoop api excl rest
              (r.1, kw :: r.2)
            else ((some (mkData sold q), some (pyMedian sold), sold.length), [kw])
        | _ =>
            let r := apiLoop api excl rest
            (r.1, kw :: r.2)

/-- `get_ebay_sold_prices_api` (with the API key configured; without one
the function returns the same `(None, None, 0)` absence without calling
anything). -/
def get_ebay_sold_prices_api (api : String → ApiResp) (product_name : String) :
    ((Option EbayData × Option ℚ × Nat) × List String) :=
  apiLoop api (get_exclusion_terms product_name) (search_queries product_name)

/-- First accepted price among the `re.findall` groups of one scraped
item text: a parse error continues, an out-of-bounds parse continues, the
first price with `5 < price < 10000` is taken. -/
def firstAccepted (gs : List (List Char)) : Option ℚ :=
  gs.findSome? (fun g =>
    match parseDec (stripCommas g) with
    | some p => if ratLtB 5 p && ratLtB p 10000 then some p else none
    | none => none)

/-- All groups of `re.findall(r'£\s*([\d,]+\.?\d*)', item_text)`:
maximal run of digits/commas (at least one), optional dot, maximal run
of digits; scanning resumes after each match. -/
def scrapeGroupAt (s : List Char) : Option (List Char × List Char) :=
  match s with
  | '£' :: cs =>
      let cs1 := cs.dropWhile pyIsSpace
      let sp := cs1.span (fun c => isDig c || c = ',')
      if sp.1 = [] then none
      else
        match sp.2 with
        | '.' :: r2 =>
            let sp2 := r2.span isDig
            some (sp.1 ++ '.' :: sp2.1, sp2.2)
        | r1 => some (sp.1, r1)
  | _ => none

def scrapeFindall : Nat → List Char → List (List Char)
  | 0, _ => []
  | _ + 1, [] => []
  | f + 1, c :: cs =>
      match scrapeGroupAt (c :: cs) with
      | some (g, r) => g :: scrapeFindall f r
      | none => scrapeFindall f cs

def scrapeItemPrices (t : String) : List (List Char) :=
  scrapeFindall (t.length + 1) t.data

/-- The sold-price collection of `_scrape_ebay_sync`: first `max_results`
items, empty item texts skipped, at most one accepted price per item. -/
def scrapeSold (items : List String) (max_results : Nat) : List ℚ :=
  (items.take max_results).filterMap (fun t =>
    if t = "" then none else firstAccepted (scrapeItemPrices t))

/-- `_scrape_ebay_sync` from the point the driver has produced its result
list: `none` models the selector miss / exception paths (which return
`(None, None, 0)`), `some items` the scraped item texts.  `query_used` is
the search query WITHOUT the exclusion suffix (the suffix is only added
to the URL). -/
def scrapeSync (driverItems : Option (List String)) (search_query : String) :
    Option EbayData × Option ℚ × Nat :=
  match driverItems with
  | none => (none, none, 0)
  | some items =>
      if items.length = 0 then (none, none, 0)
      else
        let sold := scrapeSold items 10
        if sold.isEmpty then (none, none, 0)
        else (some (mkData sold search_query), some (pyMedian sold), sold.length)

/-- The query loop of `scrape_ebay_sold_prices_selenium`, instrumented
with the keyword strings handed to the driver (query plus exclusions). -/
def scrLoop (scr : String → Option (List String)) (excl : String) :
    List String → ((Option EbayData × Option ℚ × Nat) × List String)
  | [] => ((none, none, 0), [])
  | q :: rest =>
      let kw := q ++ excl
      let r := scrapeSync (scr kw) q
      if r.1.isSome then (r, [kw])
      else
        let rr := scrLoop scr excl rest
        (rr.1, kw :: rr.2)

/-- `scrape_ebay_sold_prices_selenium`: quoted cleaned name first, then
the cleaned name (no empty-query check on this path). -/
def scrape_ebay_sold_prices_selenium (scr : String → Option (List String))
    (product_name : String) :
    ((Option EbayData × Option ℚ × Nat) × List String) :=
  let cleaned := clean_product_name product_name
  scrLoop scr (get_exclusion_terms product_name) [quoteStr cleaned, cleaned]

/-- The aggregation segment of `on_message`: API first; when it yields no
data (or a zero count) the Selenium fallback result replaces it, with
both invocation traces recorded. -/
structure PipeResult where
  data : Option EbayData
  resell : Option ℚ
  count : Nat
  apiTrace : List String
  scrTrace : List String
deriving DecidableEq

def pipeline (api : String → ApiResp) (scr : String → Option (List String))
    (product_name : String) : PipeResult :=
  let a := get_ebay_sold_prices_api api product_name
  if a.1.1.isNone || a.1.2.2 = 0 then
    let s := scrape_ebay_sold_prices_selenium scr product_name
    ⟨s.1.1, s.1.2.1, s.1.2.2, a.2, s.2⟩
  else ⟨a.1.1, a.1.2.1, a.1.2.2, a.2, []⟩

/-- The profit computation of `create_alert_embed`:
`if ebay_data and resell_price and resell_price > actual_cost` — note the
truthiness test on `resell_price` and that BOTH profit and percentage are
set to 0 whenever the branch is not taken. -/
def profitOf (buy : ℚ) (d : Option EbayData) (resell : Option ℚ) : ℚ × ℚ :=
  match d, resell with
  | some _, some rp =>
      if rp ≠ 0 ∧ ratLtB buy rp = true then
        (rp - buy, if ratLtB 0 buy then (rp - buy) / buy * 100 else 0)
      else (0, 0)
  | _, _ => (0, 0)

/-- The verdict tiers of `on_message`'s `alert_status` selection. -/
inductive Tier where
  | noData
  | highProfit
  | profitable
  | smallProfit
  | lowOrNoProfit
deriving DecidableEq

def tierOf (sold_count : Nat) (profit : ℚ) : Tier :=
  if sold_count = 0 then .noData
  else if ratLtB 50 profit then .highProfit
  else if ratLtB 20 profit then .profitable
  else if ratLtB 0 profit then .smallProfit
  else .lowOrNoProfit

theorem findSome?_mem {α β : Type} (f : α → Option β) :
    ∀ {l : List α} {b : β}, l.findSome? f = some b → ∃ a ∈ l, f a = some b := by
  intro l
  induction l with
  | nil => intro b h; simp [List.findSome?] at h
  | cons a t ih =>
      intro b h
      rw [List.findSome?] at h
      cases hfa : f a with
      | some v => rw [hfa] at h; exact ⟨a, List.mem_cons_self a t, hfa.trans h⟩
      | none =>
          rw [hfa] at h
          obtain ⟨x, hx, hfx⟩ := ih h
          exact ⟨x, List.mem_cons_of_mem a hx, hfx⟩

/-- What the spec requires of a summary that is present: at least one
sample, all samples strictly positive, and the statistics computed from
the sample list. -/
def validSummary (s : EbayData) : Prop :=
  1 ≤ s.count ∧ s.count = s.prices.length ∧ s.prices ≠ [] ∧
  (∀ p ∈ s.prices, 0 < p) ∧
  s.average = pyMean s.prices ∧ s.median = pyMedian s.prices ∧
  s.min = listMin s.prices ∧ s.max = listMax s.prices

/-- Some query of the list, non-empty after stripping, makes the API
source return at least one strictly positive item price. -/
def apiYields (api : String → ApiResp) (excl : String) (qs : List String) : Prop :=
  ∃ q ∈ qs, pyStrip q ≠ "" ∧
    ∃ l, api (pyStrip q ++ excl) = ApiResp.ok l ∧ l.filter (fun p => ratLtB 0 p) ≠ []

/-- Some query of the list makes the scraping source produce at least one
accepted sale price. -/
def scrYields (scr : String → Option (List String)) (excl : String)
    (qs : List String) : Prop :=
  ∃ q ∈ qs, (scrapeSync (scr (q ++ excl)) q).1.isSome = true

theorem mkData_valid (sold : List ℚ) (q : String) (h : sold ≠ [])
    (hp : ∀ p ∈ sold, 0 < p) : validSummary (mkData sold q) := by
  refine ⟨?_, rfl, h, hp, rfl, rfl, rfl, rfl⟩
  have := List.length_pos.mpr h
  simpa [mkData] using this

theorem apiLoop_absent (api : String → ApiResp) (excl : String) :
    ∀ qs : List String, (apiLoop api excl qs).1.1 = none →
      (apiLoop api excl qs).1 = (none, none, 0) := by
  intro qs
  induction qs with
  | nil => intro _; rfl
  | cons q rest ih =>
      intro h
      rw [apiLoop] at h ⊢
      by_cases hq : pyStrip q = ""
      · simp only [hq, if_true] at h ⊢; exact ih h
      · simp only [if_neg hq] at h ⊢
        cases happ : api (pyStrip q ++ excl) with
        | ok items =>
            simp only [happ] at h ⊢
            by_cases hs : (items.filter (fun p => ratLtB 0 p)).isEmpty
            · simp only [hs, if_true] at h ⊢; exact ih h
            · simp only [if_neg hs] at h; exact absurd h (by simp)
        | failure => simp only [happ] at h ⊢; exact ih h
        | httpError => simp only [happ] at h ⊢; exact ih h
        | err => simp only [happ] at h ⊢; exact ih h

theorem apiLoop_some (api : String → ApiResp) (excl : String) :
    ∀ (qs : List String) (s : EbayData), (apiLoop api excl qs).1.1 = some s →
      validSummary s ∧ (apiLoop api excl qs).1 = (some s, some s.median, s.count) := by
  intro qs
  induction qs with
  | nil => intro s h; simp [apiLoop] at h
  | cons q rest ih =>
      intro s h
      rw [apiLoop] at h ⊢
      by_cases hq : pyStrip q = ""
      · simp only [hq, if_true] at h ⊢; exact ih s h
      · simp only [if_neg hq] at h ⊢
        cases happ : api (pyStrip q ++ excl) with
        | ok items =>
            simp only [happ] at h ⊢
            by_cases hs : (items.filter (fun p => ratLtB 0 p)).isEmpty
            · simp only [hs, if_true] at h ⊢; exact ih s h
            · simp only [if_neg hs] at h ⊢
              have hne : items.filter (fun p => ratLtB 0 p) ≠ [] :=
                List.isEmpty_eq_false.mp (by simpa using hs)
              have hdata : some (mkData (items.filter (fun p => ratLtB 0 p)) q) = some s := by
                simpa using h
              have hsold : mkData (items.filter (fun p => ratLtB 0 p)) q = s :=
                Option.some.inj hdata
              have hpos : ∀ p ∈ items.filter (fun p => ratLtB 0 p), 0 < p := by
                intro p hp
                exact (ratLtB_iff 0 p).mp (List.of_mem_filter hp)
              constructor
              · rw [← hsold]; exact mkData_valid _ _ hne hpos
              · rw [← hsold]; rfl
        | failure => simp only [happ] at h ⊢; exact ih s h
        | httpError => simp only [happ] at h ⊢; exact ih s h
        | err => simp only [happ] at h ⊢; exact ih s h

theorem apiLoop_isSome_iff (api : String → ApiResp) (excl : String) :
    ∀ qs : List String,
      ((apiLoop api excl qs).1.1.isSome = true ↔ apiYields api excl qs) := by
  intro qs
  induction qs with
  | nil => simp [apiLoop, apiYields]
  | cons q rest ih =>
      rw [apiLoop]
      by_cases hq : pyStrip q = ""
      · simp only [hq, if_true]
        rw [ih]
        constructor
        · rintro ⟨x, hx, hxs⟩; exact ⟨x, List.mem_cons_of_mem q hx, hxs⟩
        · rintro ⟨x, hx, hxs, hrest⟩
          rcases List.mem_cons.mp hx with h | h
          · exact absurd hq (h ▸ hxs)
          · exact ⟨x, h, hxs, hrest⟩
      · simp only [if_neg hq]
        cases happ : api (pyStrip q ++ excl) with
        | ok items =>
            by_cases hs : (items.filter (fun p => ratLtB 0 p)).isEmpty
            · simp only [hs, if_true]
              rw [ih]
              constructor
              · rintro ⟨x, hx, hxs⟩; exact ⟨x, List.mem_cons_of_mem q hx, hxs⟩
              · rintro ⟨x, hx, hxs, l, hl, hlne⟩
                rcases List.mem_cons.mp hx with h | h
                · subst h
                  rw [happ] at hl
                  cases hl
                  exact absurd (List.isEmpty_iff.mp hs) hlne
                · exact ⟨x, h, hxs, l, hl, hlne⟩
            · simp only [if_neg hs, Option.isSome_some, true_iff]
              exact ⟨q, List.mem_cons_self q rest, hq,
                items, happ, List.isEmpty_eq_false.mp (by simpa using hs)⟩
        | failure =>
            rw [ih]
            constructor
            · rintro ⟨x, hx, hxs⟩; exact ⟨x, List.mem_cons_of_mem q hx, hxs⟩
            · rintro ⟨x, hx, hxs, l, hl, hlne⟩
              rcases List.mem_cons.mp hx with h | h
              · subst h; rw [happ] at hl; cases hl
              · exact ⟨x, h, hxs, l, hl, hlne⟩
        | httpError =>
            rw [ih]
            constructor
            · rintro ⟨x, hx, hxs⟩; exact ⟨x, List.mem_cons_of_mem q hx, hxs⟩
            · rintro ⟨x, hx, hxs, l, hl, hlne⟩
              rcases List.mem_cons.mp hx with h | h
              · subst h; rw [happ] at hl; cases hl
              · exact ⟨x, h, hxs, l, hl, hlne⟩
        | err =>
            rw [ih]
            constructor
            · rintro ⟨x, hx, hxs⟩; exact ⟨x, List.mem_cons_of_mem q hx, hxs⟩
            · rintro ⟨x, hx, hxs, l, hl, hlne⟩
              rcases List.mem_cons.mp hx with h | h
              · subst h; rw [happ] at hl; cases hl
              · exact ⟨x, h, hxs, l, hl, hlne⟩

theorem scrapeSold_pos (items : List String) (n : Nat) :
    ∀ p ∈ scrapeSold items n, 0 < p := by
  intro p hp
  rw [scrapeSold] at hp
  obtain ⟨t, _, heq⟩ := List.mem_filterMap.mp hp
  by_cases ht : t = ""
  · simp [ht] at heq
  · rw [if_neg ht] at heq
    obtain ⟨g, _, hg⟩ := findSome?_mem _ heq
    cases hpd : parseDec (stripCommas g) with
    | none => simp [hpd] at hg
    | some v =>
        simp only [hpd] at hg
        by_cases hr : (ratLtB 5 v && ratLtB v 10000) = true
        · rw [if_pos hr] at hg
          cases hg
          have h5 : (5 : ℚ) < p := (ratLtB_iff 5 p).mp (Bool.and_elim_left hr)
          linarith
        · rw [if_neg hr] at hg; cases hg

theorem scrapeSync_absent (d : Option (List String)) (q : String)
    (h : (scrapeSync d q).1 = none) : scrapeSync d q = (none, none, 0) := by
  cases d with
  | none => rfl
  | some items =>
      rw [scrapeSync] at h ⊢
      by_cases hl : items.length = 0
      · simp [hl]
      · simp only [if_neg hl] at h ⊢
        by_cases hs : (scrapeSold items 10).isEmpty
        · simp [hs]
        · simp only [if_neg hs] at h; exact absurd h (by simp)

theorem scrapeSync_some (d : Option (List String)) (q : String) (s : EbayData)
    (h : (scrapeSync d q).1 = some s) :
    validSummary s ∧ scrapeSync d q = (some s, some s.median, s.count) := by
  cases d with
  | none => simp [scrapeSync] at h
  | some items =>
      rw [scrapeSync] at h ⊢
      by_cases hl : items.length = 0
      · simp [hl] at h
      · simp only [if_neg hl] at h ⊢
        by_cases hs : (scrapeSold items 10).isEmpty
        · simp [hs] at h
        · simp only [if_neg hs] at h ⊢
          have hmk : mkData (scrapeSold items 10) q = s := Option.some.inj (by simpa using h)
          have hne : scrapeSold items 10 ≠ [] := List.isEmpty_eq_false.mp (by simpa using hs)
          constructor
          · rw [← hmk]; exact mkData_valid _ _ hne (scrapeSold_pos items 10)
          · rw [← hmk]; rfl

theorem scrLoop_absent (scr : String → Option (List String)) (excl : String) :
    ∀ qs : List String, (scrLoop scr excl qs).1.1 = none →
      (scrLoop scr excl qs).1 = (none, none, 0) := by
  intro qs
  induction qs with
  | nil => intro _; rfl
  | cons q rest ih =>
      intro h
      rw [scrLoop] at h ⊢
      by_cases hr : (scrapeSync (scr (q ++ excl)) q).1.isSome = true
      · simp only [hr, if_true] at h; rw [Option.isSome_iff_exists] at hr
        obtain ⟨s, hs⟩ := hr
        exact absurd h (by simp [hs])
      · simp only [hr, if_false] at h ⊢
        exact ih h

theorem scrLoop_some (scr : String → Option (List String)) (excl : String) :
    ∀ (qs : List String) (s : EbayData), (scrLoop scr excl qs).1.1 = some s →
      validSummary s ∧ (scrLoop scr excl qs).1 = (some s, some s.median, s.count) := by
  intro qs
  induction qs with
  | nil => intro s h; simp [scrLoop] at h
  | cons q rest ih =>
      intro s h
      rw [scrLoop] at h ⊢
      by_cases hr : (scrapeSync (scr (q ++ excl)) q).1.isSome = true
      · simp only [hr, if_true] at h ⊢
        obtain ⟨v, hv⟩ := Option.isSome_iff_exists.mp hr
        rw [hv] at h
        cases h
        obtain ⟨hvalid, hshape⟩ := scrapeSync_some _ _ _ hv
        exact ⟨hvalid, hshape⟩
      · simp only [hr, if_false] at h ⊢
        exact ih s h

theorem scrLoop_isSome_iff (scr : String → Option (List String)) (excl : String) :
    ∀ qs : List String,
      ((scrLoop scr excl qs).1.1.isSome = true ↔ scrYields scr excl qs) := by
  intro qs
  induction qs with
  | nil => simp [scrLoop, scrYields]
  | cons q rest ih =>
      rw [scrLoop]
      by_cases hr : (scrapeSync (scr (q ++ excl)) q).1.isSome = true
      · simp only [hr, if_true]
        obtain ⟨v, hv⟩ := Option.isSome_iff_exists.mp hr
        simp only [hv, Option.isSome_some, true_iff]
        exact ⟨q, List.mem_cons_self q rest, hr⟩
      · simp only [hr, Bool.false_eq_true, if_false]
        rw [ih]
        constructor
        · rintro ⟨x, hx, hxs⟩; exact ⟨x, List.mem_cons_of_mem q hx, hxs⟩
        · rintro ⟨x, hx, hxs⟩
          rcases List.mem_cons.mp hx with h | h
          · subst h; exact absurd hxs hr
          · exact ⟨x, h, hxs⟩


/-- Generic composition argument: the result of the API-then-fallback
wiring of `on_message` is absent-or-valid, and present exactly when one
of the two sources yields. -/
theorem pipeCases (A S : (Option EbayData × Option ℚ × Nat) × List String)
    (YA YS : Prop)
    (_hAabs : A.1.1 = none → A.1 = (none, none, 0))
    (hAsome : ∀ s, A.1.1 = some s →
      validSummary s ∧ A.1 = (some s, some s.median, s.count))
    (hAiff : A.1.1.isSome = true ↔ YA)
    (hSabs : S.1.1 = none → S.1 = (none, none, 0))
    (hSsome : ∀ s, S.1.1 = some s →
      validSummary s ∧ S.1 = (some s, some s.median, s.count))
    (hSiff : S.1.1.isSome = true ↔ YS) :
    (((if A.1.1.isNone || A.1.2.2 = 0 then
        (⟨S.1.1, S.1.2.1, S.1.2.2, A.2, S.2⟩ : PipeResult)
      else ⟨A.1.1, A.1.2.1, A.1.2.2, A.2, []⟩).data = none →
      (if A.1.1.isNone || A.1.2.2 = 0 then
        (⟨S.1.1, S.1.2.1, S.1.2.2, A.2, S.2⟩ : PipeResult)
      else ⟨A.1.1, A.1.2.1, A.1.2.2, A.2, []⟩).resell = none ∧
      (if A.1.1.isNone || A.1.2.2 = 0 then
        (⟨S.1.1, S.1.2.1, S.1.2.2, A.2, S.2⟩ : PipeResult)
      else ⟨A.1.1, A.1.2.1, A.1.2.2, A.2, []⟩).count = 0) ∧
    (∀ s, (if A.1.1.isNone || A.1.2.2 = 0 then
        (⟨S.1.1, S.1.2.1, S.1.2.2, A.2, S.2⟩ : PipeResult)
      else ⟨A.1.1, A.1.2.1, A.1.2.2, A.2, []⟩).data = some s →
      validSummary s ∧
      (if A.1.1.isNone || A.1.2.2 = 0 then
        (⟨S.1.1, S.1.2.1, S.1.2.2, A.2, S.2⟩ : PipeResult)
      else ⟨A.1.1, A.1.2.1, A.1.2.2, A.2, []⟩).resell = some s.median ∧
      (if A.1.1.isNone || A.1.2.2 = 0 then
        (⟨S.1.1, S.1.2.1, S.1.2.2, A.2, S.2⟩ : PipeResult)
      else ⟨A.1.1, A.1.2.1, A.1.2.2, A.2, []⟩).count = s.count) ∧
    ((if A.1.1.isNone || A.1.2.2 = 0 then
        (⟨S.1.1, S.1.2.1, S.1.2.2, A.2, S.2⟩ : PipeResult)
      else ⟨A.1.1, A.1.2.1, A.1.2.2, A.2, []⟩).data.isSome = true ↔ (YA ∨ YS))) := by
  by_cases hc : (A.1.1.isNone || decide (A.1.2.2 = 0)) = true
  · have hnone : A.1.1 = none := by
      cases hd : A.1.1 with
      | none => rfl
      | some s =>
          obtain ⟨hv, hshape⟩ := hAsome s hd
          have h1 : A.1.1.isNone = false := by rw [hd]; rfl
          have h2 : A.1.2.2 = s.count := congrArg (fun t => t.2.2) hshape
          have h3 : 1 ≤ s.count := hv.1
          rw [h1, h2] at hc
          simp at hc
          omega
    have hnoYA : ¬ YA := by
      rw [← hAiff, hnone]
      simp
    simp only [hc, if_true]
    refine ⟨?_, ?_, ?_⟩
    · intro h
      have hs := hSabs h
      exact ⟨congrArg (fun t => t.2.1) hs, congrArg (fun t => t.2.2) hs⟩
    · intro s h
      obtain ⟨hv, hshape⟩ := hSsome s h
      exact ⟨hv, congrArg (fun t => t.2.1) hshape, congrArg (fun t => t.2.2) hshape⟩
    · rw [hSiff]
      constructor
      · exact Or.inr
      · rintro (h | h)
        · exact absurd h hnoYA
        · exact h
  · simp only [hc, Bool.false_eq_true, if_false]
    have h1 : A.1.1.isNone = false := by
      rcases Bool.or_eq_false_iff.mp (Bool.eq_false_iff.mpr hc) with ⟨ha, _⟩
      exact ha
    have hsome : A.1.1.isSome = true := by
      cases hd : A.1.1 with
      | none => rw [hd] at h1; simp at h1
      | some s => simp
    refine ⟨?_, ?_, ?_⟩
    · intro h
      rw [h] at hsome
      simp at hsome
    · intro s h
      obtain ⟨hv, hshape⟩ := hAsome s h
      exact ⟨hv, congrArg (fun t => t.2.1) hshape, congrArg (fun t => t.2.2) hshape⟩
    · constructor
      · intro _; exact Or.inl (hAiff.mp hsome)
      · intro _; exact hsome

/-- C2: for every provider behaviour, the aggregation pipeline of
`on_message` either returns absence (data `None`, resale price `None`,
sold count 0) or a summary whose mean, median, min, max are computed from
a non-empty list of strictly positive price samples with count ≥ 1 — and
it is present exactly when some query against one of the two sources
yields an accepted positive price, so absence is never conflated with a
zero-filled summary. -/
theorem C2_aggregator_result_absent_or_valid (api : String → ApiResp)
    (scr : String → Option (List String)) (name : String) :
    ((pipeline api scr name).data = none →
      (pipeline api scr name).resell = none ∧ (pipeline api scr name).count = 0) ∧
    (∀ s, (pipeline api scr name).data = some s →
      validSummary s ∧ (pipeline api scr name).resell = some s.median ∧
        (pipeline api scr name).count = s.count) ∧
    ((pipeline api scr name).data.isSome = true ↔
      (apiYields api (get_exclusion_terms name) (search_queries name) ∨
        scrYields scr (get_exclusion_terms name)
          [quoteStr (clean_product_name name), clean_product_name name])) :=
  pipeCases (get_ebay_sold_prices_api api name)
    (scrape_ebay_sold_prices_selenium scr name)
    (apiYields api (get_exclusion_terms name) (search_queries name))
    (scrYields scr (get_exclusion_terms name)
      [quoteStr (clean_product_name name), clean_product_name name])
    (apiLoop_absent api (get_exclusion_terms name) (search_queries name))
    (apiLoop_some api (get_exclusion_terms name) (search_queries name))
    (apiLoop_isSome_iff api (get_exclusion_terms name) (search_queries name))
    (scrLoop_absent scr (get_exclusion_terms name)
      [quoteStr (clean_product_name name), clean_product_name name])
    (scrLoop_some scr (get_exclusion_terms name)
      [quoteStr (clean_product_name name), clean_product_name name])
    (scrLoop_isSome_iff scr (get_exclusion_terms name)
      [quoteStr (clean_product_name name), clean_product_name name])

/-- Witness for C2 at a concrete provider pair: both sources empty, so
the pipeline reports absence with resale `none` and count 0. -/
theorem C2_aggregator_witness :
    (pipeline (fun _ => ApiResp.ok []) (fun _ => none) "Card").data = none ∧
    ((pipeline (fun _ => ApiResp.ok []) (fun _ => none) "Card").resell = none ∧
      (pipeline (fun _ => ApiResp.ok []) (fun _ => none) "Card").count = 0) :=
  ⟨by decide,
    (C2_aggregator_result_absent_or_valid (fun _ => ApiResp.ok [])
      (fun _ => none) "Card").1 (by decide)⟩

/-- C4: when the first generated query (non-empty after stripping)
makes the primary API source return at least one strictly positive sale
price, the pipeline returns the summary computed from that first query's
positive prices, invokes no further query (the API trace is exactly the
one keyword) and never touches the scraping fallback (empty scrape
trace). -/
theorem C4_first_query_short_circuit (api : String → ApiResp)
    (scr : String → Option (List String)) (name : String)
    (q0 : String) (rest : List String) (l : List ℚ)
    (hq : search_queries name = q0 :: rest)
    (h0 : pyStrip q0 ≠ "")
    (hl : api (pyStrip q0 ++ get_exclusion_terms name) = ApiResp.ok l)
    (hp : l.filter (fun p => ratLtB 0 p) ≠ []) :
    pipeline api scr name =
      ⟨some (mkData (l.filter (fun p => ratLtB 0 p)) q0),
        some (pyMedian (l.filter (fun p => ratLtB 0 p))),
        (l.filter (fun p => ratLtB 0 p)).length,
        [pyStrip q0 ++ get_exclusion_terms name], []⟩ := by
  have hemp : (l.filter (fun p => ratLtB 0 p)).isEmpty = false :=
    List.isEmpty_eq_false.mpr hp
  have hA : get_ebay_sold_prices_api api name =
      ((some (mkData (l.filter (fun p => ratLtB 0 p)) q0),
        some (pyMedian (l.filter (fun p => ratLtB 0 p))),
        (l.filter (fun p => ratLtB 0 p)).length),
        [pyStrip q0 ++ get_exclusion_terms name]) := by
    rw [get_ebay_sold_prices_api, hq, apiLoop]
    simp only [if_neg h0, hl, hemp, Bool.false_eq_true, if_false]
  have hlen : (l.filter (fun p => ratLtB 0 p)).length ≠ 0 := by
    intro h
    exact hp (List.eq_nil_of_length_eq_zero h)
  rw [pipeline, hA]
  simp [hlen]

/-- Witness for C4: a mock provider that answers only the first generated
query for "Charizard Card"; the pipeline returns that query's summary,
the API trace holds exactly that keyword, and the scrape trace is empty. -/
theorem C4_short_circuit_witness :
    search_queries "Charizard Card" = "\"Charizard Card\"" :: ["Charizard Card"] ∧
    pipeline (fun kw => if kw = "\"Charizard Card\"" then ApiResp.ok [30, 40]
        else ApiResp.ok [])
      (fun _ => none) "Charizard Card" =
      ⟨some (mkData (([30, 40] : List ℚ).filter (fun p => ratLtB 0 p)) "\"Charizard Card\""),
        some (pyMedian (([30, 40] : List ℚ).filter (fun p => ratLtB 0 p))),
        (([30, 40] : List ℚ).filter (fun p => ratLtB 0 p)).length,
        [pyStrip "\"Charizard Card\"" ++ get_exclusion_terms "Charizard Card"], []⟩ :=
  ⟨by decide,
    C4_first_query_short_circuit
      (fun kw => if kw = "\"Charizard Card\"" then ApiResp.ok [30, 40] else ApiResp.ok [])
      (fun _ => none) "Charizard Card" "\"Charizard Card\"" ["Charizard Card"] [30, 40]
      (by decide) (by decide) (by decide) (by decide)⟩

/-- C1 counterexample: purchase price 10, resale median 5 (a summary with
one sale at 5).  The claim states profit = median − purchase = −5, but
the code produces profit 0 and percent 0 (the else-branch of
`create_alert_embed` clamps both to 0). -/
theorem C1_counterexample :
    profitOf 10 (some (mkData [5] "q")) (some 5) = (0, 0) ∧ (0 : ℚ) ≠ 5 - 10 := by
  constructor
  · decide
  · decide

/-- C1 amended: when the resale median is at most the purchase price, the
tier is LowOrNoProfit but profit and profitPercent are both clamped to 0;
the loss `median − purchase` is never computed. -/
theorem C1_profit_clamped (buy m : ℚ) (d : EbayData) (n : Nat)
    (_hb : 0 < buy) (hm : m ≤ buy) (hn : 1 ≤ n) :
    profitOf buy (some d) (some m) = (0, 0) ∧
    tierOf n (profitOf buy (some d) (some m)).1 = Tier.lowOrNoProfit := by
  have hlt : ratLtB buy m = false := by
    rw [← Bool.not_eq_true]
    intro h
    exact absurd ((ratLtB_iff buy m).mp h) (not_lt.mpr hm)
  have hmain : profitOf buy (some d) (some m) = (0, 0) := by
    rw [profitOf, if_neg]
    rintro ⟨_, h2⟩
    rw [hlt] at h2
    cases h2
  refine ⟨hmain, ?_⟩
  rw [hmain]
  have hn0 : ¬ n = 0 := by omega
  rw [tierOf, if_neg hn0]
  decide

theorem C1_profit_clamped_witness :
    (0 : ℚ) < 10 ∧ (5 : ℚ) ≤ 10 ∧ 1 ≤ 1 ∧
    (profitOf 10 (some (mkData [5] "q")) (some 5) = (0, 0) ∧
      tierOf 1 (profitOf 10 (some (mkData [5] "q")) (some 5)).1 = Tier.lowOrNoProfit) :=
  ⟨by norm_num, by norm_num, le_refl 1,
    C1_profit_clamped 10 5 (mkData [5] "q") 1 (by norm_num) (by norm_num) (le_refl 1)⟩

/-- C3 counterexample: a fragment "£0.1" parses to exactly 0.1, which the
claim says is rejected (open interval); the code's guard is
`0.1 <= price`, so the extractor accepts it and returns 1/10. -/
theorem C3_counterexample :
    extract_price defaultRates ⟨some "£0.1", none, none, none, []⟩ = some (1 / 10) := by
  decide

/-- C3 amended: the acceptance interval is half-open — `inRange v` holds
iff `0.1 ≤ v < 100000`, so 0.1 is accepted (see the counterexample) while
exactly 100000 is rejected: an embed whose only fragment is "£100000"
yields no price. -/
theorem C3_halfopen_range :
    (∀ v : ℚ, inRange v = true ↔ (1 / 10 ≤ v ∧ v < 100000)) ∧
    extract_price defaultRates ⟨some "£100000", none, none, none, []⟩ = none := by
  constructor
  · intro v
    rw [inRange, Bool.and_eq_true, ratLeB_iff, ratLtB_iff]
  · decide

/-- C7 counterexample: a field labeled "Resell Notice" with value "£50".
The claim says a fragment whose label contains "notice" or "resell" is
skipped entirely and never contributes the price — but the code checks
"notice" only against the internal location tag (never the field name)
and "resell" only against the fragment content, so the field's VALUE is
scanned and 50 is returned. -/
theorem C7_counterexample :
    extract_price defaultRates ⟨none, none, none, none, [("Resell Notice", "£50")]⟩ =
      some 50 := by
  decide

/-- C7 amended: the skip implemented by the loop is exactly
`'notice' in location.lower() or 'resell' in text.lower()` (with the
location tags never containing "notice"); fragments satisfying it never
contribute — the loop computes the same result when they are removed. -/
theorem C7_skip_filter (r : Rates) :
    ∀ (l : List (Loc × String)) (acc : Option ℚ),
      extractLoop r l acc = extractLoop r (l.filter (fun p => !skipB p.1 p.2)) acc := by
  intro l
  induction l with
  | nil => intro acc; rfl
  | cons p rest ih =>
      intro acc
      obtain ⟨loc, t⟩ := p
      by_cases hsk : skipB loc t
      · rw [List.filter_cons_of_neg (by simp [hsk])]
        by_cases ht : t = ""
        · rw [extractLoop, if_pos ht]; exact ih acc
        · rw [extractLoop, if_neg ht, if_pos hsk]; exact ih acc
      · rw [List.filter_cons_of_pos (by simp [hsk])]
        by_cases ht : t = ""
        · rw [extractLoop, if_pos ht, extractLoop, if_pos ht]; exact ih acc
        · rw [extractLoop, if_neg ht, if_neg hsk, extractLoop, if_neg ht, if_neg hsk]
          cases hfp : fragPrice r t with
          | none => exact ih acc
          | some v =>
              dsimp only
              by_cases hv : v = 0
              · rw [if_pos hv, if_pos hv]; exact ih (some v)
              · rw [if_neg hv, if_neg hv]

/-- C9 counterexample: the normalizer does not remove ISO-code-form
currency amounts — "GBP 45" survives `clean_product_name` unchanged,
contradicting the claim that both forms are stripped. -/
theorem C9_counterexample :
    clean_product_name "Card GBP 45" = "Card GBP 45" ∧
    containsB (clean_product_name "Card GBP 45") "GBP 45" = true := by
  decide

/-- C9 amended: only symbol-form amounts (a currency symbol followed by a
number) are removed by the normalizer; ISO-code-form amounts
(GBP/USD/EUR followed by a number) are left in place. -/
theorem C9_symbol_only :
    clean_product_name "Card £45.50 Box" = "Card Box" ∧
    clean_product_name "Toy $9 and €8" = "Toy and" ∧
    clean_product_name "Card USD 7" = "Card USD 7" ∧
    clean_product_name "Card EUR 7" = "Card EUR 7" := by
  decide

/-- C10: on a fragment with no numeral-then-code match, the format-2 loop
tries GBP first (the `PRICE_PATTERNS` insertion order), so whenever the
GBP pattern has an accepted match, that value is returned — regardless of
any other currency's amount appearing earlier in the text. -/
theorem C10_gbp_precedence (r : Rates) (t : String) (g : List Char) (v : ℚ)
    (h1 : fmt1Search t.data = none)
    (h2 : gateB "GBP" t = true)
    (h3 : patFirst "GBP" t.data = some g)
    (h4 : parseDec (stripCommas g) = some v)
    (h5 : inRange v = true) :
    fragPrice r t = some v := by
  have hf1 : fmt1Price r t = none := by rw [fmt1Price, h1]
  have hone : fmt2One r "GBP" t = some v := by
    rw [fmt2One, if_pos h2, h3]
    simp only [h4, if_pos h5]
    rfl
  rw [fragPrice, hf1]
  simp only [fmt2Price, List.findSome?, hone]

/-- Witness for C10 on "was $100, now £50": the USD amount appears first
in the text, yet the GBP amount 50 is extracted. -/
theorem C10_gbp_precedence_witness :
    fmt1Search "was $100, now £50".data = none ∧
    fragPrice defaultRates "was $100, now £50" = some 50 :=
  ⟨by decide,
    C10_gbp_precedence defaultRates "was $100, now £50" ['5', '0'] 50
      (by decide) (by decide) (by decide) (by decide) (by decide)⟩

theorem startsWithL_self_append : ∀ p x : List Char, startsWithL p (p ++ x) = true := by
  intro p
  induction p with
  | nil => intro x; rfl
  | cons c cs ih => intro x; simp [startsWithL, ih]

theorem isSuffixB_append (a b : String) : isSuffixB b (a ++ b) = true := by
  rw [isSuffixB, String.data_append, List.reverse_append]
  exact startsWithL_self_append _ _

theorem string_append_ne_empty (sq excl : String) (h : sq ≠ "") : sq ++ excl ≠ "" := by
  intro he
  apply h
  have hd := congrArg String.data he
  rw [String.data_append] at hd
  have h2 := List.append_eq_nil.mp hd
  exact congrArg String.mk h2.1

/-- Every keyword string the API loop actually sends is a stripped
non-empty query followed by the exclusion terms. -/
theorem apiLoop_trace_entries (api : String → ApiResp) (excl : String) :
    ∀ (qs : List String) (t : String), t ∈ (apiLoop api excl qs).2 →
      ∃ q, pyStrip q ≠ "" ∧ t = pyStrip q ++ excl := by
  intro qs
  induction qs with
  | nil => intro t ht; simp [apiLoop] at ht
  | cons q rest ih =>
      intro t ht
      rw [apiLoop] at ht
      by_cases hq : pyStrip q = ""
      · simp only [hq, if_true] at ht; exact ih t ht
      · simp only [if_neg hq] at ht
        cases happ : api (pyStrip q ++ excl) with
        | ok items =>
            simp only [happ] at ht
            by_cases hs : (items.filter (fun p => ratLtB 0 p)).isEmpty
            · simp only [hs, if_true] at ht
              rcases List.mem_cons.mp ht with h | h
              · exact ⟨q, hq, h⟩
              · exact ih t h
            · simp only [hs, Bool.false_eq_true, if_false] at ht
              exact ⟨q, hq, by simpa using ht⟩
        | failure =>
            simp only [happ] at ht
            rcases List.mem_cons.mp ht with h | h
            · exact ⟨q, hq, h⟩
            · exact ih t h
        | httpError =>
            simp only [happ] at ht
            rcases List.mem_cons.mp ht with h | h
            · exact ⟨q, hq, h⟩
            · exact ih t h
        | err =>
            simp only [happ] at ht
            rcases List.mem_cons.mp ht with h | h
            · exact ⟨q, hq, h⟩
            · exact ih t h

/-- C6 counterexample: the query generator performs no deduplication —
for the six-word name "a b c d e f" the unquoted variant and the
first-six-words variant coincide — and for "bundle" (whose cleaned form
is empty) the generated list even contains the empty string. -/
theorem C6_counterexample :
    (¬ List.Pairwise (fun a b => lowerStr a ≠ lowerStr b)
        (search_queries "a b c d e f")) ∧
    "" ∈ search_queries "bundle" := by
  constructor
  · decide
  · decide

/-- C6 amended: the generated list may contain duplicates and empty
entries, but the API loop skips entries that strip to the empty string,
so every keyword actually sent to the provider is non-empty. -/
theorem C6_no_empty_query_invoked (api : String → ApiResp) (name : String) :
    ∀ t ∈ (get_ebay_sold_prices_api api name).2, t ≠ "" := by
  intro t ht
  obtain ⟨q, hq, hform⟩ :=
    apiLoop_trace_entries api (get_exclusion_terms name) (search_queries name) t ht
  rw [hform]
  exact string_append_ne_empty _ _ hq

theorem C6_no_empty_query_witness :
    "\"Card\"" ∈ (get_ebay_sold_prices_api (fun _ => ApiResp.ok []) "Card").2 ∧
    "\"Card\"" ≠ "" :=
  ⟨by decide,
    C6_no_empty_query_invoked (fun _ => ApiResp.ok []) "Card" "\"Card\"" (by decide)⟩

/-- C8 counterexample: "Destined Booster Box" contains "Booster Box", so
the claim demands no exclusion suffix; but "destined" contains the
single-item keyword "tin" as a substring, the single-item check wins, and
every invoked query carries the multipack-exclusion suffix. -/
theorem C8_counterexample :
    containsB (lowerStr "Destined Booster Box") "booster box" = true ∧
    (get_ebay_sold_prices_api (fun _ => ApiResp.ok []) "Destined Booster Box").2.head? =
      some "\"Destined Booster Box\" -\"booster box\" -display" ∧
    isSuffixB " -\"booster box\" -display"
      "\"Destined Booster Box\" -\"booster box\" -display" = true := by
  refine ⟨by decide, by decide, by decide⟩

/-- C8 amended: a name containing "booster pack" (case-insensitively)
always classifies as single-item — every invoked API keyword carries the
exclusion suffix; a name containing "booster box" produces no suffix
PROVIDED no single-item keyword occurs as a substring (the single-item
check runs first and wins). -/
theorem C8_exclusion_amended (name : String) (api : String → ApiResp) :
    (containsB (lowerStr name) "booster pack" = true →
      get_exclusion_terms name = " -\"booster box\" -display" ∧
      ∀ t ∈ (get_ebay_sold_prices_api api name).2,
        isSuffixB " -\"booster box\" -display" t = true) ∧
    (containsB (lowerStr name) "booster box" = true →
      (∀ k ∈ single_item_keywords, containsB (lowerStr name) k = false) →
      get_exclusion_terms name = "") := by
  constructor
  · intro hp
    have hany : single_item_keywords.any (fun k => containsB (lowerStr name) k) = true :=
      List.any_eq_true.mpr ⟨"booster pack", by decide, hp⟩
    have hse : should_exclude_multipacks name = true := by
      rw [should_exclude_multipacks]
      simp only [hany, if_true]
    have hexcl : get_exclusion_terms name = " -\"booster box\" -display" := by
      rw [get_exclusion_terms, if_pos hse]
    refine ⟨hexcl, ?_⟩
    intro t ht
    obtain ⟨q, _, hform⟩ :=
      apiLoop_trace_entries api (get_exclusion_terms name) (search_queries name) t ht
    rw [hform, hexcl]
    exact isSuffixB_append _ _
  · intro _ hall
    have hany : single_item_keywords.any (fun k => containsB (lowerStr name) k) = false := by
      rw [List.any_eq_false]
      intro k hk
      rw [hall k hk]
      simp
    have hse : should_exclude_multipacks name = false := by
      rw [should_exclude_multipacks]
      simp only [hany, Bool.false_eq_true, if_false, ite_self]
    rw [get_exclusion_terms, if_neg (by rw [hse]; simp)]

theorem C8_exclusion_witness :
    containsB (lowerStr "Mega Booster Pack") "booster pack" = true ∧
    get_exclusion_terms "Mega Booster Pack" = " -\"booster box\" -display" ∧
    ("\"Mega Booster Pack\" -\"booster box\" -display" ∈
        (get_ebay_sold_prices_api (fun _ => ApiResp.ok []) "Mega Booster Pack").2 ∧
      isSuffixB " -\"booster box\" -display"
        "\"Mega Booster Pack\" -\"booster box\" -display" = true) ∧
    (containsB (lowerStr "Plain Booster Box") "booster box" = true ∧
      get_exclusion_terms "Plain Booster Box" = "") :=
  ⟨by decide,
    ((C8_exclusion_amended "Mega Booster Pack" (fun _ => ApiResp.ok [])).1 (by decide)).1,
    ⟨by decide,
      ((C8_exclusion_amended "Mega Booster Pack" (fun _ => ApiResp.ok [])).1 (by decide)).2
        "\"Mega Booster Pack\" -\"booster box\" -display" (by decide)⟩,
    ⟨by decide,
      (C8_exclusion_amended "Plain Booster Box" (fun _ => ApiResp.ok [])).2
        (by decide) (by decide)⟩⟩

theorem promoteStep_no_trig (all : List (Loc × String)) (acc : Option (Loc × String))
    (p : Loc × String)
    (h : (isFieldNameLoc p.1 && decide (p.2 ≠ "") && containsB (lowerStr p.2) "price") = false) :
    promoteStep all acc p = acc := by
  rw [promoteStep, if_neg]
  rw [h]
  simp

theorem foldl_optFrag_promote (all : List (Loc × String)) (L : Loc) (o : Option String)
    (acc : Option (Loc × String)) (h : isFieldNameLoc L = false) :
    (optFrag L o).foldl (promoteStep all) acc = acc := by
  cases o with
  | none => rfl
  | some t =>
      rw [optFrag]
      by_cases ht : t = ""
      · rw [if_pos ht]; rfl
      · rw [if_neg ht]
        show promoteStep all acc (L, t) = acc
        exact promoteStep_no_trig all acc (L, t) (by simp [h])

theorem foldl_fields_no_trig (all : List (Loc × String)) :
    ∀ (pre : List (String × String)) (i : Nat) (acc : Option (Loc × String)),
      (∀ f ∈ pre, ¬(f.1 ≠ "" ∧ containsB (lowerStr f.1) "price" = true)) →
      (fieldFragsFrom i pre).foldl (promoteStep all) acc = acc := by
  intro pre
  induction pre with
  | nil => intro i acc _; rfl
  | cons f rest ih =>
      intro i acc h
      obtain ⟨n, v⟩ := f
      have hn : (isFieldNameLoc (Loc.fieldName i) && decide (n ≠ "") &&
          containsB (lowerStr n) "price") = false := by
        have hf := h (n, v) (List.mem_cons_self _ _)
        by_cases hne : n = ""
        · simp [hne]
        · have : containsB (lowerStr n) "price" = false := by
            by_contra hc
            exact hf ⟨hne, by simpa using hc⟩
          simp [this]
      have hv : (isFieldNameLoc (Loc.fieldValue i) && decide (v ≠ "") &&
          containsB (lowerStr v) "price") = false := by simp [isFieldNameLoc]
      rw [fieldFragsFrom]
      rw [List.foldl_cons, List.foldl_cons]
      rw [promoteStep_no_trig all acc _ hn, promoteStep_no_trig all acc _ hv]
      exact ih (i + 1) acc (fun g hg => h g (List.mem_cons_of_mem _ hg))

theorem fieldFragsFrom_append :
    ∀ (l1 l2 : List (String × String)) (i : Nat),
      fieldFragsFrom i (l1 ++ l2) =
        fieldFragsFrom i l1 ++ fieldFragsFrom (i + l1.length) l2 := by
  intro l1
  induction l1 with
  | nil => intro l2 i; simp [fieldFragsFrom]
  | cons f rest ih =>
      intro l2 i
      obtain ⟨n, v⟩ := f
      rw [List.cons_append, fieldFragsFrom, fieldFragsFrom, ih]
      simp only [List.cons_append, List.length_cons]
      have : i + (rest.length + 1) = i + 1 + rest.length := by omega
      rw [this]

theorem find_fieldValue_optFrag (L : Loc) (o : Option String) (m : Nat)
    (h : ∀ j, L ≠ Loc.fieldValue j) :
    (optFrag L o).find? (fun q => q.1 = Loc.fieldValue m) = none := by
  cases o with
  | none => rfl
  | some t =>
      rw [optFrag]
      by_cases ht : t = ""
      · rw [if_pos ht]; rfl
      · rw [if_neg ht]
        rw [List.find?_cons_of_neg _ (by simpa using h m)]
        rfl

theorem find_fieldValue_fields :
    ∀ (pre : List (String × String)) (i : Nat) (fld : String × String)
      (post : List (String × String)),
      (fieldFragsFrom i (pre ++ fld :: post)).find?
          (fun q => q.1 = Loc.fieldValue (i + pre.length)) =
        some (Loc.fieldValue (i + pre.length), fld.2) := by
  intro pre
  induction pre with
  | nil =>
      intro i fld post
      obtain ⟨n, v⟩ := fld
      rw [List.nil_append, fieldFragsFrom]
      rw [List.find?_cons_of_neg _ (by simp)]
      rw [List.find?_cons_of_pos _ (by simp)]
      simp
  | cons f rest ih =>
      intro i fld post
      obtain ⟨n, v⟩ := f
      rw [List.cons_append, fieldFragsFrom]
      rw [List.find?_cons_of_neg _ (by simp)]
      rw [List.find?_cons_of_neg _ (by
        simp only [decide_eq_true_eq]
        intro hcon
        have : i = i + ((n, v) :: rest).length := (Loc.fieldValue.injEq _ _).mp hcon
        simp at this)]
      have hlen : i + ((n, v) :: rest).length = (i + 1) + rest.length := by
        simp [List.length_cons]; omega
      rw [hlen]
      exact ih (i + 1) fld post

/-- C5: when exactly one field's NAME contains "price" (case-
insensitively), and its value is a valid purchase-price candidate (not
skipped, extractable, non-zero), the extractor returns the price from
that field's value — in preference to any price occurring in the title,
description, author, footer or any other field, regardless of their
position in the payload's natural order. -/
theorem C5_price_field_preferred (r : Rates) (e : AlertEmbed)
    (pre post : List (String × String)) (fld : String × String) (v : ℚ)
    (hfields : e.fields = pre ++ fld :: post)
    (hname : fld.1 ≠ "" ∧ containsB (lowerStr fld.1) "price" = true)
    (hpre : ∀ f ∈ pre, ¬(f.1 ≠ "" ∧ containsB (lowerStr f.1) "price" = true))
    (hpost : ∀ f ∈ post, ¬(f.1 ≠ "" ∧ containsB (lowerStr f.1) "price" = true))
    (hnores : containsB (lowerStr fld.2) "resell" = false)
    (hvne : fld.2 ≠ "")
    (hv : fragPrice r fld.2 = some v)
    (hvz : v ≠ 0) :
    extract_price r e = some v := by
  have hall : allText e =
      optFrag Loc.title e.title ++ optFrag Loc.description e.description ++
      optFrag Loc.author e.author ++ optFrag Loc.footer e.footer ++
      fieldFragsFrom 0 (pre ++ fld :: post) := by
    rw [allText, hfields]
  have hfind : (allText e).find? (fun q => q.1 = Loc.fieldValue pre.length) =
      some (Loc.fieldValue pre.length, fld.2) := by
    rw [hall]
    rw [List.find?_append, List.find?_append, List.find?_append, List.find?_append]
    rw [find_fieldValue_optFrag _ _ _ (by intro j h; cases h),
        find_fieldValue_optFrag _ _ _ (by intro j h; cases h),
        find_fieldValue_optFrag _ _ _ (by intro j h; cases h),
        find_fieldValue_optFrag _ _ _ (by intro j h; cases h)]
    have := find_fieldValue_fields pre 0 fld post
    rw [Nat.zero_add] at this
    rw [this]
    rfl
  have key : ∀ all : List (Loc × String),
      all.find? (fun q => q.1 = Loc.fieldValue pre.length) =
        some (Loc.fieldValue pre.length, fld.2) →
      (optFrag Loc.title e.title ++ optFrag Loc.description e.description ++
       optFrag Loc.author e.author ++ optFrag Loc.footer e.footer ++
       fieldFragsFrom 0 (pre ++ fld :: post)).foldl (promoteStep all) none =
        some (Loc.fieldValue pre.length, fld.2) := by
    intro all hf
    rw [List.foldl_append, List.foldl_append, List.foldl_append, List.foldl_append]
    rw [foldl_optFrag_promote all Loc.title e.title _ rfl,
        foldl_optFrag_promote all Loc.description e.description _ rfl,
        foldl_optFrag_promote all Loc.author e.author _ rfl,
        foldl_optFrag_promote all Loc.footer e.footer _ rfl]
    rw [fieldFragsFrom_append, List.foldl_append]
    rw [foldl_fields_no_trig all pre 0 none hpre]
    rw [fieldFragsFrom, List.foldl_cons, List.foldl_cons]
    have htrig : promoteStep all none (Loc.fieldName (0 + pre.length), fld.1) =
        some (Loc.fieldValue pre.length, fld.2) := by
      rw [promoteStep, if_pos (by simp [isFieldNameLoc, hname.1, hname.2])]
      simp only [fieldIdx, Nat.zero_add, hf]
    rw [htrig]
    have hval : promoteStep all (some (Loc.fieldValue pre.length, fld.2))
        (Loc.fieldValue (0 + pre.length), fld.2) =
        some (Loc.fieldValue pre.length, fld.2) :=
      promoteStep_no_trig all _ _ (by simp [isFieldNameLoc])
    rw [hval]
    exact foldl_fields_no_trig all post _ _ hpost
  have hpromote : promoteScan (allText e) = some (Loc.fieldValue pre.length, fld.2) := by
    rw [promoteScan]
    rw [hall] at hfind ⊢
    exact key _ hfind
  have horder : searchOrder e = (Loc.fieldValue pre.length, fld.2) ::
      (allText e).filter (fun q => q ≠ (Loc.fieldValue pre.length, fld.2)) := by
    rw [searchOrder]
    simp only [hpromote]
  have hskip : skipB (Loc.fieldValue pre.length) fld.2 = false := by
    rw [skipB, hnores]
    rfl
  rw [extract_price, horder, extractLoop, if_neg hvne, if_neg (by rw [hskip]; simp)]
  simp only [hv]
  rw [if_neg hvz]

/-- Witness for C5: the title "Item was £99 great" appears before the
"Best Price" field, but the extractor returns the price 30 from the
price-named field's value. -/
theorem C5_price_field_witness :
    fragPrice defaultRates "£30" = some 30 ∧
    extract_price defaultRates
      ⟨some "Item was £99 great", none, none, none, [("Best Price", "£30")]⟩ =
        some 30 :=
  ⟨by decide,
    C5_price_field_preferred defaultRates
      ⟨some "Item was £99 great", none, none, none, [("Best Price", "£30")]⟩
      [] [] ("Best Price", "£30") 30
      rfl ⟨by decide, by decide⟩
      (fun f hf => absurd hf (List.not_mem_nil f))
      (fun f hf => absurd hf (List.not_mem_nil f))
      (by decide) (by decide) (by decide) (by decide)⟩
